import Mathlib

/-!
Verification development for the fermentation-control program
(src/NEW_GUI_VFINAL.py).  Python floats are modelled as rationals,
Python strings as lists of characters, timestamps as a record of the
formatted date key, the formatted HH:MM string and an absolute number
of seconds.  Each definition mirrors the source function it is named
after.
-/

/-- Models voltage_to_current_ma: (voltage / shunt_ohms) * 1000.0. -/
def voltage_to_current_ma (voltage shunt_ohms : ℚ) : ℚ :=
  voltage / shunt_ohms * 1000

/-- Models current_to_flow_sccm.  The Python function reads the module
globals FLOW_MIN_SCCM and FLOW_MAX_SCCM (environment-configurable,
defaults 0.0 and 50.0); they are passed here as parameters fmin, fmax.
The body mirrors the source: if FLOW_MAX_SCCM <= FLOW_MIN_SCCM return 0.0;
clamp the current to [4.0, 20.0]; span = 16.0; linear interpolation. -/
def current_to_flow_sccm (fmin fmax current_ma : ℚ) : ℚ :=
  if fmax ≤ fmin then 0
  else
    let c := max 4 (min 20 current_ma)
    fmin + (c - 4) * (fmax - fmin) / 16

/-- Status labels produced in _flow_take_sample ("OK", "Bajo rango",
"Alto rango"; the spec calls the latter two low range / high range). -/
inductive FlowStatus where
  | ok
  | bajoRango
  | altoRango
deriving DecidableEq

/-- Models the status classification in _flow_take_sample: status = "OK";
if current_ma < 3.8 status = "Bajo rango"; elif current_ma > 20.5 status =
"Alto rango".  The current used here is the raw, unclamped one. -/
def flow_status_of (current_ma : ℚ) : FlowStatus :=
  if current_ma < 38/10 then .bajoRango
  else if 205/10 < current_ma then .altoRango
  else .ok

/-- One in-memory flow sample as built in _flow_take_sample (timestamp
and voltage omitted: they are copied through unchanged). -/
structure FlowSample where
  flow : ℚ
  current_ma : ℚ
  status : FlowStatus
deriving DecidableEq

/-- Models the sampling core of _flow_take_sample: current_ma =
voltage_to_current_ma(voltage, shunt); flow = current_to_flow_sccm(current_ma);
status classified from the raw current. -/
def flow_take_sample (fmin fmax voltage shunt_ohms : ℚ) : FlowSample :=
  let c := voltage_to_current_ma voltage shunt_ohms
  { flow := current_to_flow_sccm fmin fmax c
    current_ma := c
    status := flow_status_of c }

/-- Thermal state of one FermBox: cold_in, hot_in, manual_mode
(initialised False, False, False in the constructor). -/
structure FermState where
  cold_in : Bool
  hot_in : Bool
  manual_mode : Bool
deriving DecidableEq

/-- The FermBox constructor state: cold_in = False, hot_in = False,
manual_mode = False. -/
def fermInit : FermState :=
  { cold_in := false, hot_in := false, manual_mode := false }

/-- Models the thermal-control block of update_process (the body of
`if not self.manual_mode.get():`): band is floored at 0.05, the cold
branch runs first, then the hot branch (which reads the original hot_in
and only the temperature), then cerrar_todo when both are off (which
leaves the flags both False, as they already are). -/
def update_process_thermal (s : FermState) (t sp band : ℚ) : FermState :=
  if s.manual_mode then s
  else
    let b := max (5/100) band
    let cold1 := if s.cold_in then !decide (t ≤ sp - b) else decide (t ≥ sp + b)
    let hot1 := if s.hot_in then !decide (t ≥ sp + b) else decide (t ≤ sp - b)
    { s with cold_in := cold1, hot_in := hot1 }

/-- Models forzar_frio: guarded by _can_force (manual_mode); sets
cold_in = True, hot_in = False. -/
def forzar_frio (s : FermState) : FermState :=
  if s.manual_mode then { s with cold_in := true, hot_in := false } else s

/-- Models forzar_caliente: guarded by _can_force (manual_mode); sets
hot_in = True, cold_in = False. -/
def forzar_caliente (s : FermState) : FermState :=
  if s.manual_mode then { s with hot_in := true, cold_in := false } else s

/-- Models cerrar_todo: cold_in = False, hot_in = False. -/
def cerrar_todo (s : FermState) : FermState :=
  { s with cold_in := false, hot_in := false }

/-- Models stop_all (thermal part): manual_mode set True, both
actuators closed. -/
def stop_all (s : FermState) : FermState :=
  { s with manual_mode := true, cold_in := false, hot_in := false }

/-- Models the user toggling the "Modo manual" checkbox. -/
def set_manual_mode (s : FermState) (b : Bool) : FermState :=
  { s with manual_mode := b }

/-- The operations of claim C1, plus the manual-mode checkbox that
arms the forced actions. -/
inductive FermOp where
  | tick (t sp band : ℚ)
  | forceCold
  | forceHot
  | closeAll
  | stopAll
  | setManual (b : Bool)

/-- One operation applied to a thermal state. -/
def fermStep (s : FermState) : FermOp → FermState
  | .tick t sp band => update_process_thermal s t sp band
  | .forceCold => forzar_frio s
  | .forceHot => forzar_caliente s
  | .closeAll => cerrar_todo s
  | .stopAll => stop_all s
  | .setManual b => set_manual_mode s b

/-- A whole run from the constructor state. -/
def fermRun (ops : List FermOp) : FermState :=
  ops.foldl fermStep fermInit

/-- Python strings are modelled as lists of characters; Python compares
strings lexicographically by code point, which the two functions below
implement. -/
abbrev PyStr := List Char

/-- Lexicographic less-or-equal on Python strings (a prefix is ≤ its
extensions, equal heads recurse, otherwise the code points decide). -/
def pyStrLe : PyStr → PyStr → Bool
  | [], _ => true
  | _ :: _, [] => false
  | a :: as, b :: bs => if a = b then pyStrLe as bs else decide (a < b)

/-- Lexicographic strict less-than on Python strings. -/
def pyStrLt : PyStr → PyStr → Bool
  | [], [] => false
  | [], _ :: _ => true
  | _ :: _, [] => false
  | a :: as, b :: bs => if a = b then pyStrLt as bs else decide (a < b)

/-- Models str.split(":"). -/
def splitColon : PyStr → List PyStr
  | [] => [[]]
  | c :: cs =>
    if c = ':' then [] :: splitColon cs
    else
      match splitColon cs with
      | g :: gs => (c :: g) :: gs
      | [] => [[c]]

/-- Accumulator loop for pyNat. -/
def pyNatAux (acc : ℕ) : PyStr → Option ℕ
  | [] => some acc
  | c :: cs =>
    if c.isDigit then pyNatAux (acc * 10 + (c.toNat - 48)) cs else none

/-- Models int(s) on the unsigned decimal strings that occur in HH:MM
fields: a non-empty all-digit string parses to its value, anything else
raises (None here).  Python additionally tolerates surrounding
whitespace, a sign and underscore grouping; those forms never reach
hhmm_ok in this program and are not modelled. -/
def pyNat (s : PyStr) : Option ℕ :=
  if s = [] then none else pyNatAux 0 s

/-- Models hhmm_ok: split on ":", unpack into exactly two parts (a
different number of parts raises, caught as False), parse both with
int, and test 0 <= h <= 23 and 0 <= m <= 59 (the lower bounds are
automatic for digit strings; a parse failure raises, caught as False). -/
def hhmm_ok (s : PyStr) : Bool :=
  match splitColon s with
  | [h, m] =>
    match pyNat h, pyNat m with
    | some hv, some mv => decide (hv ≤ 23) && decide (mv ≤ 59)
    | _, _ => false
  | _ => false

/-- The character of a decimal digit. -/
def digitChar (n : ℕ) : Char := Char.ofNat (48 + n)

/-- Two-digit zero-padded field, as produced by strftime %H or %M. -/
def twoDigits (n : ℕ) : PyStr :=
  if n < 10 then ['0', digitChar n] else [digitChar (n / 10), digitChar (n % 10)]

/-- Models t.strftime("%H:%M"): zero-padded hour and minute. -/
def strftime_hm (h m : ℕ) : PyStr :=
  twoDigits h ++ ':' :: twoDigits m

/-- Models str(n) for a natural number (unpadded decimal form). -/
def pyRepr (n : ℕ) : PyStr := Nat.toDigits 10 n

/-- One calendar event, a {"time": hhmm, "value": v} dict from
_events_from_rows. -/
structure CalEvent where
  time : PyStr
  value : ℚ
deriving DecidableEq

/-- A calendar: the Python dict from date key ("YYYY-MM-DD") to its
event list, modelled as an association list with unique keys. -/
abbrev Calendar := List (PyStr × List CalEvent)

/-- Models events_dict.get(key, []). -/
def dictGet (cal : Calendar) (key : PyStr) : List CalEvent :=
  match cal.find? (fun p => decide (p.1 = key)) with
  | some p => p.2
  | none => []

/-- The filter inside sp_from_date_calendar: events whose "time" field
is truthy (non-empty) and lexicographically ≤ the current HH:MM. -/
def spQualifying (flist : List CalEvent) (hhmm_now : PyStr) : List CalEvent :=
  flist.filter (fun e => !e.time.isEmpty && pyStrLe e.time hhmm_now)

/-- One step of the running maximum below (on a tie the later event
replaces the earlier one). -/
def pickStep (acc : Option CalEvent) (e : CalEvent) : Option CalEvent :=
  match acc with
  | none => some e
  | some a => if pyStrLe a.time e.time then some e else some a

/-- Models sorted(todays, key=lambda e: e["time"])[-1]: Python sorting is
stable and ascending, so the last element of the sorted list is the last
element, in original order, among those with the maximal key; this fold
returns exactly that element. -/
def pickLastMax (l : List CalEvent) : Option CalEvent :=
  l.foldl pickStep none

/-- Models sp_from_date_calendar: empty dict → default; flist =
events_dict.get(ymd(t.date()), []); empty → default; keep the events
with truthy time ≤ strftime("%H:%M"); none → default; otherwise the
value of the last event of the stable ascending sort.  The caller keeps
its prior value on default (None). -/
def sp_from_date_calendar (cal : Calendar) (dateKey hhmm_now : PyStr) : Option ℚ :=
  if cal = [] then none
  else
    let flist := dictGet cal dateKey
    if flist = [] then none
    else
      match pickLastMax (spQualifying flist hhmm_now) with
      | some e => some e.value
      | none => none

/-- Models nut_fire_for_minute: the values of every event on today's
key whose "time" equals strftime("%H:%M") exactly. -/
def nut_fire_for_minute (cal : Calendar) (dateKey hhmm_now : PyStr) : List ℚ :=
  if cal = [] then []
  else
    ((dictGet cal dateKey).filter (fun e => decide (e.time = hhmm_now))).map
      (fun e => e.value)

/-- An instant as update_process sees it: the formatted date key, the
formatted HH:MM string and the absolute time in seconds (used for the
timedelta arithmetic on dosing deadlines). -/
structure PyTime where
  dateKey : PyStr
  hhmm : PyStr
  secs : ℚ
deriving DecidableEq

/-- The "%Y-%m-%d %H:%M" minute key used for minute-boundary
de-duplication (self._last_min). -/
def minuteKey (t : PyTime) : PyStr := t.dateKey ++ ' ' :: t.hhmm

/-- Dosing state of one FermBox: _last_min (None initially) and
nut_running_until (None initially), the latter as absolute seconds. -/
structure NutState where
  last_min : Option PyStr
  nut_running_until : Option ℚ
deriving DecidableEq

/-- Models the minute-boundary dosing block of update_process:
if _last_min != current_min: doses = nut_fire_for_minute(cal_nut, tnow);
if doses: dur_total = sum of the doses that are > 0; if dur_total > 0:
nut_running_until = tnow + timedelta(seconds=dur_total); finally
_last_min = current_min. -/
def update_process_dosing (cal : Calendar) (s : NutState) (t : PyTime) : NutState :=
  let current_min := minuteKey t
  if s.last_min ≠ some current_min then
    let doses := nut_fire_for_minute cal t.dateKey t.hhmm
    let until1 :=
      if doses ≠ [] then
        let dur_total := (doses.filter (fun d => decide (0 < d))).sum
        if 0 < dur_total then some (t.secs + dur_total) else s.nut_running_until
      else s.nut_running_until
    { last_min := some current_min, nut_running_until := until1 }
  else s

/-- One line of a CSV sink: the header row or a data row (the row
payload is abstracted to a number; only header placement matters to the
claims). -/
inductive CsvEntry where
  | header
  | record (n : ℕ)
deriving DecidableEq

/-- A file on disk: none = the path does not exist; some l = the file
exists with entries l (possibly empty, size zero). -/
abbrev CsvFile := Option (List CsvEntry)

/-- How many header rows a file content holds. -/
def countHeaders (l : List CsvEntry) : ℕ :=
  l.countP (fun e => decide (e = CsvEntry.header))

/-- Models the per-channel branch of _csv_write_row: cabe = not
os.path.exists(ipath); the file is opened in append mode (created empty
when missing); the header is written only when cabe, then the row. -/
def csv_write_row_channel (file : CsvFile) (n : ℕ) : List CsvEntry :=
  let cabe := file.isNone
  file.getD [] ++ (if cabe then [CsvEntry.header] else []) ++ [CsvEntry.record n]

/-- Models the backup branch of _csv_write_row (and likewise
_co2_backup_write_row): write_header = not os.path.exists(bpath) or
os.path.getsize(bpath) == 0; append mode; header only when write_header,
then the row. -/
def csv_write_row_backup (file : CsvFile) (n : ℕ) : List CsvEntry :=
  let write_header := file.isNone || (file.getD []).isEmpty
  file.getD [] ++ (if write_header then [CsvEntry.header] else []) ++ [CsvEntry.record n]

/-- Modelled from the spec wording of claim C3 (for the refutation
only): a header is due exactly when the file does not exist or has zero
length. -/
def headerDueSpec (file : CsvFile) : Bool :=
  file.isNone || (file.getD []).isEmpty

/-- A sequence of appends through the per-channel sink (each write
leaves the file existing with the returned content). -/
def csvRunChannel (file : CsvFile) (rows : List ℕ) : CsvFile :=
  rows.foldl (fun f n => some (csv_write_row_channel f n)) file

/-- A sequence of appends through the backup sink. -/
def csvRunBackup (file : CsvFile) (rows : List ℕ) : CsvFile :=
  rows.foldl (fun f n => some (csv_write_row_backup f n)) file

/-- Result of one call of read_temp_ds18b20 on the hardware path: the
returned temperature, the _last_temp_error flag after the call, and
whether this call printed the degradation message. -/
structure TempReadResult where
  value : ℚ
  last_temp_error : Bool
  logged : Bool
deriving DecidableEq

/-- Models read_temp_ds18b20 (hardware path, device present): the
argument is the outcome of the w1_slave read (some v = parsed
temperature, none = any exception).  On success the try block returns v
and the finally clause sets _last_temp_error = False.  On failure the
except block logs only when _last_temp_error was False and sets the flag
True, returns 20.0 — and then the finally clause runs before the return
completes and resets _last_temp_error to False again. -/
def read_temp_ds18b20 (last_temp_error : Bool) (reading : Option ℚ) : TempReadResult :=
  match reading with
  | some v => { value := v, last_temp_error := false, logged := false }
  | none => { value := 20, last_temp_error := false, logged := !last_temp_error }

/-- Header count of a file (a missing file holds no entries). -/
def countHeadersF (f : CsvFile) : ℕ := countHeaders (f.getD [])

/-- The setpoint lookup as a function of the event list actually
retrieved for the date key (helper for stating that other dates never
influence the result). -/
def spOnList (flist : List CalEvent) (hhmm_now : PyStr) : Option ℚ :=
  if flist = [] then none
  else
    match pickLastMax (spQualifying flist hhmm_now) with
    | some e => some e.value
    | none => none

/-- Date D of the worked examples in the spec. -/
def exDateD : PyStr := "2024-05-01".toList

/-- Date D+1 of the worked examples in the spec. -/
def exDateD1 : PyStr := "2024-05-02".toList

/-- Setpoint calendar of the spec example: events (08:00, 20.0) and
(14:00, 25.0) on date D. -/
def exCalSp : Calendar :=
  [(exDateD, [⟨"08:00".toList, 20⟩, ⟨"14:00".toList, 25⟩])]

/-- Dosing calendar of the spec example: events (09:00, 30) and
(09:00, 20) on date D. -/
def exCalNut : Calendar :=
  [(exDateD, [⟨"09:00".toList, 30⟩, ⟨"09:00".toList, 20⟩])]

/-- Dosing calendar with one positive and one larger negative event in
the same minute. -/
def exCalNutNeg : Calendar :=
  [(exDateD, [⟨"09:00".toList, 30⟩, ⟨"09:00".toList, -40⟩])]

lemma update_process_thermal_inv (s : FermState) (t sp band : ℚ)
    (h : (s.cold_in && s.hot_in) = false) :
    ((update_process_thermal s t sp band).cold_in &&
      (update_process_thermal s t sp band).hot_in) = false := by
  unfold update_process_thermal
  by_cases hm : s.manual_mode
  · simpa [hm] using h
  · have hb : (5/100 : ℚ) ≤ max (5/100) band := le_max_left _ _
    set b := max (5/100) band with hbdef
    by_cases h1 : t ≤ sp - b <;> by_cases h2 : t ≥ sp + b
    · exfalso; linarith
    · simp [hm, h1, h2]
    · simp [hm, h1, h2]
    · simpa [hm, h1, h2] using h

lemma fermStep_inv (s : FermState) (op : FermOp)
    (h : (s.cold_in && s.hot_in) = false) :
    ((fermStep s op).cold_in && (fermStep s op).hot_in) = false := by
  cases op with
  | tick t sp band => exact update_process_thermal_inv s t sp band h
  | forceCold =>
    by_cases hm : s.manual_mode
    · simp [fermStep, forzar_frio, hm]
    · simpa [fermStep, forzar_frio, hm] using h
  | forceHot =>
    by_cases hm : s.manual_mode
    · simp [fermStep, forzar_caliente, hm]
    · simpa [fermStep, forzar_caliente, hm] using h
  | closeAll => simp [fermStep, cerrar_todo]
  | stopAll => simp [fermStep, stop_all]
  | setManual b => simpa [fermStep, set_manual_mode] using h

lemma fermFold_inv (ops : List FermOp) (s : FermState)
    (h : (s.cold_in && s.hot_in) = false) :
    ((ops.foldl fermStep s).cold_in && (ops.foldl fermStep s).hot_in) = false := by
  induction ops generalizing s with
  | nil => simpa using h
  | cons op ops ih => exact ih (fermStep s op) (fermStep_inv s op h)

/-- C1: from the initial state (both actuators off), any sequence of
automatic control ticks, forced-cold, forced-hot, close-all, global
stop-all (and manual-mode toggles) never makes cold_active and
hot_active true at the same time. -/
theorem C1_actuators_never_both_on (ops : List FermOp) :
    ((fermRun ops).cold_in && (fermRun ops).hot_in) = false :=
  fermFold_inv ops fermInit rfl

lemma update_process_thermal_deadband (s : FermState) (t sp band : ℚ)
    (hman : s.manual_mode = false)
    (hlo : sp - band < t) (hhi : t < sp + band) :
    update_process_thermal s t sp band = s := by
  obtain ⟨c, ht, m⟩ := s
  simp only at hman
  subst hman
  unfold update_process_thermal
  have hb : band ≤ max (5/100) band := le_max_right _ _
  have h1 : ¬(t ≤ sp - max (5/100) band) := by linarith
  have h2 : ¬(t ≥ sp + max (5/100) band) := by linarith
  simp [h1, h2]

/-- C5: with manual override off and the temperature strictly inside
(setpoint - band, setpoint + band), one evaluation of the thermal
transition rule leaves the channel state (in particular cold_in and
hot_in) unchanged; hence any sequence of temperatures oscillating
strictly inside the band leaves the state unchanged. -/
theorem C5_hysteresis_deadband (s : FermState) (t sp band : ℚ)
    (temps : List ℚ) (hman : s.manual_mode = false) :
    (sp - band < t → t < sp + band → update_process_thermal s t sp band = s)
    ∧ ((∀ x ∈ temps, sp - band < x ∧ x < sp + band) →
        temps.foldl (fun st x => update_process_thermal st x sp band) s = s) := by
  constructor
  · exact fun hlo hhi => update_process_thermal_deadband s t sp band hman hlo hhi
  · intro hall
    induction temps with
    | nil => rfl
    | cons x xs ih =>
      have hx := hall x (List.mem_cons_self x xs)
      simp only [List.foldl_cons,
        update_process_thermal_deadband s x sp band hman hx.1 hx.2]
      exact ih fun y hy => hall y (List.mem_cons_of_mem x hy)

/-- Witness for C5 at a concrete state and temperatures. -/
theorem C5_hysteresis_deadband_witness :
    update_process_thermal ⟨true, false, false⟩ 20 20 1 = ⟨true, false, false⟩
    ∧ [(199 : ℚ)/10, 20, 201/10].foldl
        (fun st x => update_process_thermal st x 20 (1 : ℚ)) ⟨true, false, false⟩
      = ⟨true, false, false⟩ := by
  have h := C5_hysteresis_deadband ⟨true, false, false⟩ 20 20 1
    [(199 : ℚ)/10, 20, 201/10] rfl
  exact ⟨h.1 (by norm_num) (by norm_num),
    h.2 (by intro x hx; fin_cases hx <;> constructor <;> norm_num)⟩

/-- C4: the code contradicts the log-once requirement.  A failing read
returns the 20.0 fallback and logs, but the finally clause resets
_last_temp_error to False even on the failure path, so the second of
two consecutive failing reads logs again. -/
theorem C4_sensor_log_every_failure :
    read_temp_ds18b20 false none = ⟨20, false, true⟩
    ∧ (read_temp_ds18b20 (read_temp_ds18b20 false none).last_temp_error none).logged
        = true := by
  constructor <;> rfl

/-- C7: current_to_flow_sccm returns 0 when flow_max <= flow_min and
otherwise interpolates the current clamped to [4, 20] linearly over a
span of 16; for 2.0 V across 148 ohms the derived current is 500/37,
about 13.51 mA, and with flow_min = 0, flow_max = 50 the flow is
1100/37, about 29.7 units. -/
theorem C7_current_to_flow (fmin fmax c : ℚ) :
    (fmax ≤ fmin → current_to_flow_sccm fmin fmax c = 0)
    ∧ (fmin < fmax →
        current_to_flow_sccm fmin fmax c
          = fmin + (max 4 (min 20 c) - 4) * (fmax - fmin) / 16)
    ∧ voltage_to_current_ma 2 148 = 500/37
    ∧ |voltage_to_current_ma 2 148 - 1351/100| < 1/100
    ∧ current_to_flow_sccm 0 50 (voltage_to_current_ma 2 148) = 1100/37
    ∧ |current_to_flow_sccm 0 50 (voltage_to_current_ma 2 148) - 297/10| < 5/100 := by
  have hcur : voltage_to_current_ma 2 148 = 500/37 := by
    unfold voltage_to_current_ma; norm_num
  have hclamp : max (4:ℚ) (min 20 (500/37)) = 500/37 := by
    rw [min_eq_right (by norm_num), max_eq_right (by norm_num)]
  have hflow : current_to_flow_sccm 0 50 (voltage_to_current_ma 2 148) = 1100/37 := by
    rw [hcur]; unfold current_to_flow_sccm
    rw [if_neg (by norm_num)]
    simp only [hclamp]
    norm_num
  refine ⟨fun h => ?_, fun h => ?_, hcur, ?_, hflow, ?_⟩
  · unfold current_to_flow_sccm; rw [if_pos h]
  · unfold current_to_flow_sccm; rw [if_neg (not_le.mpr h)]
  · rw [hcur]; rw [abs_sub_lt_iff]; constructor <;> norm_num
  · rw [hflow]; rw [abs_sub_lt_iff]; constructor <;> norm_num

/-- Witness for C7 at concrete parameters on both branches. -/
theorem C7_current_to_flow_witness :
    current_to_flow_sccm 50 0 7 = 0
    ∧ current_to_flow_sccm 0 50 7 = 0 + (max 4 (min 20 7) - 4) * (50 - 0) / 16 :=
  ⟨(C7_current_to_flow 50 0 7).1 (by norm_num),
   (C7_current_to_flow 0 50 7).2.1 (by norm_num)⟩

/-- C9: with FLOW_MAX_SCCM > FLOW_MIN_SCCM the conversion lands in
[FLOW_MIN_SCCM, FLOW_MAX_SCCM] for every input current and is monotone
non-decreasing in the current. -/
theorem C9_flow_bounded_monotone (fmin fmax c c2 : ℚ) (h : fmin < fmax) :
    (fmin ≤ current_to_flow_sccm fmin fmax c
      ∧ current_to_flow_sccm fmin fmax c ≤ fmax)
    ∧ (c ≤ c2 →
        current_to_flow_sccm fmin fmax c ≤ current_to_flow_sccm fmin fmax c2) := by
  have hne := not_le.mpr h
  have hspan : (0:ℚ) ≤ fmax - fmin := by linarith
  constructor
  · unfold current_to_flow_sccm
    rw [if_neg hne]
    have h4 : (4:ℚ) ≤ max 4 (min 20 c) := le_max_left _ _
    have h20 : max (4:ℚ) (min 20 c) ≤ 20 := max_le (by norm_num) (min_le_left _ _)
    constructor
    · have : (0:ℚ) ≤ (max 4 (min 20 c) - 4) * (fmax - fmin) / 16 :=
        div_nonneg (mul_nonneg (by linarith) hspan) (by norm_num)
      linarith
    · nlinarith [mul_le_mul_of_nonneg_right (by linarith : max (4:ℚ) (min 20 c) - 4 ≤ 16) hspan]
  · intro hc
    unfold current_to_flow_sccm
    rw [if_neg hne, if_neg hne]
    have hmono : max (4:ℚ) (min 20 c) ≤ max 4 (min 20 c2) :=
      max_le_max le_rfl (min_le_min le_rfl hc)
    have := mul_le_mul_of_nonneg_right (by linarith : max (4:ℚ) (min 20 c) - 4 ≤ max 4 (min 20 c2) - 4) hspan
    linarith

/-- Witness for C9 at concrete parameters. -/
theorem C9_flow_bounded_monotone_witness :
    ((0:ℚ) ≤ current_to_flow_sccm 0 50 5 ∧ current_to_flow_sccm 0 50 5 ≤ 50)
    ∧ current_to_flow_sccm 0 50 5 ≤ current_to_flow_sccm 0 50 7 := by
  have h := C9_flow_bounded_monotone 0 50 5 7 (by norm_num)
  exact ⟨h.1, h.2 (by norm_num)⟩

/-- C8: a sample stores the raw loop current; the status is classified
from that unclamped current with thresholds 3.8 and 20.5; the stored
flow comes from the clamped current; and any current at or below the
4 mA clamp (such as 3.79 mA) pins the flow at flow_min while the status
reads low range. -/
theorem C8_status_unclamped_flow_clamped (fmin fmax voltage shunt : ℚ) :
    ((flow_take_sample fmin fmax voltage shunt).current_ma
        = voltage_to_current_ma voltage shunt)
    ∧ (voltage_to_current_ma voltage shunt < 38/10 →
        (flow_take_sample fmin fmax voltage shunt).status = .bajoRango)
    ∧ (205/10 < voltage_to_current_ma voltage shunt →
        (flow_take_sample fmin fmax voltage shunt).status = .altoRango)
    ∧ (38/10 ≤ voltage_to_current_ma voltage shunt →
        voltage_to_current_ma voltage shunt ≤ 205/10 →
        (flow_take_sample fmin fmax voltage shunt).status = .ok)
    ∧ ((flow_take_sample fmin fmax voltage shunt).flow
        = current_to_flow_sccm fmin fmax (voltage_to_current_ma voltage shunt))
    ∧ (fmin < fmax → voltage_to_current_ma voltage shunt ≤ 4 →
        (flow_take_sample fmin fmax voltage shunt).flow = fmin) := by
  refine ⟨rfl, fun h => ?_, fun h => ?_, fun h1 h2 => ?_, rfl, fun h1 h2 => ?_⟩
  · simp [flow_take_sample, flow_status_of, h]
  · have : ¬(voltage_to_current_ma voltage shunt < 38/10) := by linarith
    simp [flow_take_sample, flow_status_of, this, h]
  · have hlt : ¬(voltage_to_current_ma voltage shunt < 38/10) := not_lt.mpr h1
    have hgt : ¬(205/10 < voltage_to_current_ma voltage shunt) := not_lt.mpr h2
    simp [flow_take_sample, flow_status_of, hlt, hgt]
  · have hmin : min (20:ℚ) (voltage_to_current_ma voltage shunt)
        = voltage_to_current_ma voltage shunt := min_eq_right (by linarith)
    have hmax : max (4:ℚ) (voltage_to_current_ma voltage shunt) = 4 :=
      max_eq_left h2
    simp only [flow_take_sample, current_to_flow_sccm, if_neg (not_le.mpr h1), hmin, hmax]
    ring

/-- Witness for C8: raw current 3.79 mA gives status low range while
the flow is pinned at flow_min = 0 (for flow span 0..50). -/
theorem C8_status_unclamped_flow_clamped_witness :
    (flow_take_sample 0 50 (379/100) 1000).status = .bajoRango
    ∧ (flow_take_sample 0 50 (379/100) 1000).flow = 0 := by
  have h := C8_status_unclamped_flow_clamped 0 50 (379/100) 1000
  refine ⟨h.2.1 ?_, h.2.2.2.2.2 (by norm_num) ?_⟩ <;>
    · unfold voltage_to_current_ma; norm_num

/-- C3 counterexample: a pre-existing empty per-channel file is due a
header by the claim, but the per-channel branch of _csv_write_row tests
only file existence and writes none. -/
theorem C3_counterexample_empty_channel_file :
    headerDueSpec (some []) = true
    ∧ countHeaders (csv_write_row_channel (some []) 0) = 0 := by
  constructor <;> rfl

lemma countHeaders_append (l1 l2 : List CsvEntry) :
    countHeaders (l1 ++ l2) = countHeaders l1 + countHeaders l2 :=
  List.countP_append _ _ _

lemma csvRunChannel_nonempty (rows : List ℕ) (l : List CsvEntry) (hl : l ≠ []) :
    ∃ l2, csvRunChannel (some l) rows = some l2 ∧ l2 ≠ []
      ∧ countHeaders l2 = countHeaders l := by
  induction rows generalizing l with
  | nil => exact ⟨l, rfl, hl, rfl⟩
  | cons n rows ih =>
    have hstep : csv_write_row_channel (some l) n = l ++ [CsvEntry.record n] := by
      simp [csv_write_row_channel]
    obtain ⟨l2, h1, h2, h3⟩ := ih (l ++ [CsvEntry.record n]) (by simp)
    refine ⟨l2, ?_, h2, ?_⟩
    · simpa [csvRunChannel, hstep] using h1
    · rw [h3, countHeaders_append]; simp [countHeaders]

lemma csvRunBackup_nonempty (rows : List ℕ) (l : List CsvEntry) (hl : l ≠ []) :
    ∃ l2, csvRunBackup (some l) rows = some l2 ∧ l2 ≠ []
      ∧ countHeaders l2 = countHeaders l := by
  induction rows generalizing l with
  | nil => exact ⟨l, rfl, hl, rfl⟩
  | cons n rows ih =>
    have hstep : csv_write_row_backup (some l) n = l ++ [CsvEntry.record n] := by
      simp [csv_write_row_backup, List.isEmpty_iff, hl]
    obtain ⟨l2, h1, h2, h3⟩ := ih (l ++ [CsvEntry.record n]) (by simp)
    refine ⟨l2, ?_, h2, ?_⟩
    · simpa [csvRunBackup, hstep] using h1
    · rw [h3, countHeaders_append]; simp [countHeaders]

/-- C3 (amended): the backup sink emits its header exactly when the
file is missing or has zero length; the per-channel sink emits its
header exactly when the file is missing, so a pre-existing empty
per-channel file gets no header; for both sinks an append to an
existing non-empty file adds no header, and any non-empty run of
appends against a fresh path yields exactly one header (so repeated
restarts against the same non-empty file never duplicate it). -/
theorem C3_header_once_amended (file : CsvFile) (n : ℕ) (l : List CsvEntry)
    (rows : List ℕ) :
    (countHeaders (csv_write_row_backup file n)
      = countHeaders (file.getD []) + (if headerDueSpec file then 1 else 0))
    ∧ (countHeaders (csv_write_row_channel file n)
      = countHeaders (file.getD []) + (if file.isNone then 1 else 0))
    ∧ (l ≠ [] → countHeaders (csv_write_row_channel (some l) n) = countHeaders l
        ∧ countHeaders (csv_write_row_backup (some l) n) = countHeaders l)
    ∧ (rows ≠ [] → countHeadersF (csvRunChannel none rows) = 1
        ∧ countHeadersF (csvRunBackup none rows) = 1)
    ∧ (l ≠ [] → countHeadersF (csvRunChannel (some l) rows) = countHeaders l
        ∧ countHeadersF (csvRunBackup (some l) rows) = countHeaders l)
    ∧ countHeaders (csv_write_row_backup (some []) n) = 1
    ∧ countHeaders (csv_write_row_channel (some []) n) = 0 := by
  refine ⟨?_, ?_, fun hl => ⟨?_, ?_⟩, fun hr => ⟨?_, ?_⟩, fun hl => ⟨?_, ?_⟩, rfl, rfl⟩
  · cases file with
    | none => rfl
    | some l0 =>
      cases l0 with
      | nil => rfl
      | cons e l0 =>
        simp only [csv_write_row_backup, headerDueSpec, Option.getD_some,
          Option.isNone_some, List.isEmpty_cons, Bool.false_or, if_neg Bool.false_ne_true,
          List.nil_append, List.cons_append]
        rw [← List.cons_append, countHeaders_append]
        simp [countHeaders]
  · cases file with
    | none => rfl
    | some l0 => simp [csv_write_row_channel, countHeaders_append, countHeaders]
  · simp [csv_write_row_channel, countHeaders_append, countHeaders]
  · simp [csv_write_row_backup, List.isEmpty_iff, hl, countHeaders_append, countHeaders]
  · obtain ⟨n0, rows0, rfl⟩ := List.exists_cons_of_ne_nil hr
    have hfirst : csv_write_row_channel none n0 = [CsvEntry.header, CsvEntry.record n0] := rfl
    obtain ⟨l2, h1, _, h3⟩ :=
      csvRunChannel_nonempty rows0 [CsvEntry.header, CsvEntry.record n0] (by simp)
    have : csvRunChannel none (n0 :: rows0)
        = csvRunChannel (some [CsvEntry.header, CsvEntry.record n0]) rows0 := by
      simp [csvRunChannel, hfirst]
    rw [countHeadersF, this, h1]
    simpa [countHeaders] using h3
  · obtain ⟨n0, rows0, rfl⟩ := List.exists_cons_of_ne_nil hr
    have hfirst : csv_write_row_backup none n0 = [CsvEntry.header, CsvEntry.record n0] := rfl
    obtain ⟨l2, h1, _, h3⟩ :=
      csvRunBackup_nonempty rows0 [CsvEntry.header, CsvEntry.record n0] (by simp)
    have : csvRunBackup none (n0 :: rows0)
        = csvRunBackup (some [CsvEntry.header, CsvEntry.record n0]) rows0 := by
      simp [csvRunBackup, hfirst]
    rw [countHeadersF, this, h1]
    simpa [countHeaders] using h3
  · obtain ⟨l2, h1, _, h3⟩ := csvRunChannel_nonempty rows l hl
    rw [countHeadersF, h1]
    simpa using h3
  · obtain ⟨l2, h1, _, h3⟩ := csvRunBackup_nonempty rows l hl
    rw [countHeadersF, h1]
    simpa using h3

/-- Witness for C3 (amended) at concrete files and rows. -/
theorem C3_header_once_amended_witness :
    (countHeaders (csv_write_row_channel (some [CsvEntry.header, CsvEntry.record 0]) 1)
      = countHeaders [CsvEntry.header, CsvEntry.record 0])
    ∧ countHeadersF (csvRunChannel none [0, 1, 2]) = 1
    ∧ countHeadersF (csvRunBackup none [0, 1, 2]) = 1 := by
  have h := C3_header_once_amended (some [CsvEntry.header, CsvEntry.record 0]) 1
    [CsvEntry.header, CsvEntry.record 0] [0, 1, 2]
  exact ⟨(h.2.2.1 (by simp)).1, (h.2.2.2.1 (by simp)).1, (h.2.2.2.1 (by simp)).2⟩

/-- C2 counterexample: dosing events (09:00, 30) and (09:00, -40) on
date D fire together; their full sum is -10, non-positive, so the claim
says the deadline is untouched, but update_process sums only the
positive values and sets dosing_until = now + 30 s. -/
theorem C2_counterexample_negative_dose :
    (nut_fire_for_minute exCalNutNeg exDateD ("09:00".toList)).sum ≤ 0
    ∧ (update_process_dosing exCalNutNeg ⟨none, none⟩
        ⟨exDateD, "09:00".toList, 0⟩).nut_running_until = some 30 := by
  constructor
  · show ((30 : ℚ) + (-40 + 0)) ≤ 0
    norm_num
  · show (if (0:ℚ) < 30 + 0 then some ((0:ℚ) + (30 + 0)) else none) = some 30
    rw [if_pos (by norm_num)]
    norm_num

/-- C2 (amended): on a fresh minute boundary the fired events are
collected, the non-positive values are discarded, and if the remaining
positive values have sum S > 0 then dosing_until is overwritten with
now + S seconds regardless of any prior deadline; if no positive value
fired, the prior deadline is kept; the minute is then marked consumed.
The spec example (09:00, 30) and (09:00, 20) still yields now + 50 s. -/
theorem C2_dosing_overwrite_amended (cal : Calendar) (s : NutState) (t : PyTime)
    (hmin : s.last_min ≠ some (minuteKey t)) :
    (0 < ((nut_fire_for_minute cal t.dateKey t.hhmm).filter (fun d => decide (0 < d))).sum →
      (update_process_dosing cal s t).nut_running_until
        = some (t.secs + ((nut_fire_for_minute cal t.dateKey t.hhmm).filter
            (fun d => decide (0 < d))).sum))
    ∧ (¬0 < ((nut_fire_for_minute cal t.dateKey t.hhmm).filter (fun d => decide (0 < d))).sum →
      (update_process_dosing cal s t).nut_running_until = s.nut_running_until)
    ∧ (update_process_dosing cal s t).last_min = some (minuteKey t) := by
  unfold update_process_dosing
  rw [if_pos hmin]
  refine ⟨fun hS => ?_, fun hS => ?_, rfl⟩
  · by_cases hd : nut_fire_for_minute cal t.dateKey t.hhmm = []
    · rw [hd] at hS; simp at hS
    · simp only [hd, if_pos hS]
      simp [hd]
  · by_cases hd : nut_fire_for_minute cal t.dateKey t.hhmm = []
    · simp [hd]
    · simp only [hd]
      simp only [if_neg hS]
      simp [hd]

/-- Witness for C2 (amended): the spec example overwrites a prior
deadline of 999 with now + 50 at D 09:00. -/
theorem C2_dosing_overwrite_amended_witness :
    (update_process_dosing exCalNut ⟨none, some 999⟩
        ⟨exDateD, "09:00".toList, 0⟩).nut_running_until = some 50 := by
  have h := C2_dosing_overwrite_amended exCalNut ⟨none, some 999⟩
    ⟨exDateD, "09:00".toList, 0⟩ (by simp)
  have h50 : ((nut_fire_for_minute exCalNut exDateD ("09:00".toList)).filter
      (fun d => decide (0 < d))).sum = (50 : ℚ) := by
    show ((30 : ℚ) + (20 + 0)) = 50
    norm_num
  rw [h.1 (by rw [h50]; norm_num)]
  rw [h50]
  norm_num

lemma pyStrLe_refl (s : PyStr) : pyStrLe s s = true := by
  induction s with
  | nil => rfl
  | cons a as ih => simp [pyStrLe, ih]

lemma pyStrLe_total (a b : PyStr) : pyStrLe a b = true ∨ pyStrLe b a = true := by
  induction a generalizing b with
  | nil => left; cases b <;> rfl
  | cons x xs ih =>
    cases b with
    | nil => right; rfl
    | cons y ys =>
      by_cases hxy : x = y
      · subst hxy
        rcases ih ys with h | h
        · left; simp [pyStrLe, h]
        · right; simp [pyStrLe, h]
      · rcases Ne.lt_or_lt hxy with h | h
        · left; simp [pyStrLe, hxy, h]
        · right; simp [pyStrLe, Ne.symm hxy, h]

lemma pyStrLe_trans (a b c : PyStr) (hab : pyStrLe a b = true)
    (hbc : pyStrLe b c = true) : pyStrLe a c = true := by
  induction a generalizing b c with
  | nil => cases c <;> rfl
  | cons x xs ih =>
    cases b with
    | nil => simp [pyStrLe] at hab
    | cons y ys =>
      cases c with
      | nil => simp [pyStrLe] at hbc
      | cons z zs =>
        simp only [pyStrLe] at hab hbc ⊢
        by_cases hxy : x = y
        · subst hxy
          simp only [if_pos rfl] at hab
          by_cases hyz : x = z
          · subst hyz
            simp only [if_pos rfl] at hbc ⊢
            exact ih ys zs hab hbc
          · simp only [if_neg hyz] at hbc ⊢
            exact hbc
        · simp only [if_neg hxy, decide_eq_true_eq] at hab
          by_cases hyz : y = z
          · subst hyz
            simp [hxy, hab]
          · simp only [if_neg hyz, decide_eq_true_eq] at hbc
            have hxz : x < z := lt_trans hab hbc
            simp [ne_of_lt hxz, hxz]

lemma pickLastMax_go (l : List CalEvent) (a : CalEvent) :
    ∃ e, l.foldl pickStep (some a) = some e ∧ (e = a ∨ e ∈ l)
      ∧ pyStrLe a.time e.time = true ∧ ∀ x ∈ l, pyStrLe x.time e.time = true := by
  induction l generalizing a with
  | nil => exact ⟨a, rfl, Or.inl rfl, pyStrLe_refl _, by simp⟩
  | cons x xs ih =>
    by_cases hax : pyStrLe a.time x.time = true
    · obtain ⟨e, h1, h2, h3, h4⟩ := ih x
      refine ⟨e, ?_, ?_, pyStrLe_trans _ _ _ hax h3, ?_⟩
      · simpa [pickStep, hax] using h1
      · rcases h2 with rfl | h2
        · exact Or.inr (List.mem_cons_self _ _)
        · exact Or.inr (List.mem_cons_of_mem _ h2)
      · intro y hy
        rcases List.mem_cons.mp hy with rfl | hy
        · exact h3
        · exact h4 y hy
    · have hxa : pyStrLe x.time a.time = true :=
        (pyStrLe_total a.time x.time).resolve_left hax
      obtain ⟨e, h1, h2, h3, h4⟩ := ih a
      refine ⟨e, ?_, ?_, h3, ?_⟩
      · simpa [pickStep, hax] using h1
      · rcases h2 with rfl | h2
        · exact Or.inl rfl
        · exact Or.inr (List.mem_cons_of_mem _ h2)
      · intro y hy
        rcases List.mem_cons.mp hy with rfl | hy
        · exact pyStrLe_trans _ _ _ hxa h3
        · exact h4 y hy

lemma pickLastMax_spec (l : List CalEvent) (hl : l ≠ []) :
    ∃ e, pickLastMax l = some e ∧ e ∈ l
      ∧ ∀ x ∈ l, pyStrLe x.time e.time = true := by
  obtain ⟨x, xs, rfl⟩ := List.exists_cons_of_ne_nil hl
  obtain ⟨e, h1, h2, _, h4⟩ := pickLastMax_go xs x
  refine ⟨e, ?_, ?_, ?_⟩
  · simpa [pickLastMax, pickStep] using h1
  · rcases h2 with rfl | h2
    · exact List.mem_cons_self _ _
    · exact List.mem_cons_of_mem _ h2
  · intro y hy
    rcases List.mem_cons.mp hy with rfl | hy
    · obtain ⟨e2, g1, g2, g3, g4⟩ := pickLastMax_go xs y
      rw [h1] at g1
      cases g1
      exact g3
    · exact h4 y hy

lemma sp_eq_spOnList (cal : Calendar) (dateKey hhmm : PyStr) :
    sp_from_date_calendar cal dateKey hhmm = spOnList (dictGet cal dateKey) hhmm := by
  unfold sp_from_date_calendar spOnList
  by_cases hc : cal = []
  · subst hc
    simp [dictGet]
  · simp [hc]

/-- C6: the setpoint lookup depends only on the events filed under the
date key of the instant (events on other dates never affect it); with no
event on that date at or before the current time it returns the
no-change default; otherwise it returns the value of a qualifying event
with maximal time_of_day. -/
theorem C6_sp_latest_applicable (cal cal2 : Calendar) (dateKey hhmm : PyStr) :
    (dictGet cal dateKey = dictGet cal2 dateKey →
      sp_from_date_calendar cal dateKey hhmm = sp_from_date_calendar cal2 dateKey hhmm)
    ∧ (spQualifying (dictGet cal dateKey) hhmm = [] →
      sp_from_date_calendar cal dateKey hhmm = none)
    ∧ (spQualifying (dictGet cal dateKey) hhmm ≠ [] →
      ∃ e ∈ spQualifying (dictGet cal dateKey) hhmm,
        sp_from_date_calendar cal dateKey hhmm = some e.value
        ∧ ∀ x ∈ spQualifying (dictGet cal dateKey) hhmm,
            pyStrLe x.time e.time = true) := by
  refine ⟨fun h => by rw [sp_eq_spOnList, sp_eq_spOnList, h], fun h => ?_, fun h => ?_⟩
  · rw [sp_eq_spOnList]
    unfold spOnList
    by_cases hf : dictGet cal dateKey = []
    · simp [hf]
    · simp [hf, h, pickLastMax]
  · rw [sp_eq_spOnList]
    unfold spOnList
    have hf : dictGet cal dateKey ≠ [] := by
      intro hc
      exact h (by simp [spQualifying, hc])
    obtain ⟨e, h1, h2, h3⟩ := pickLastMax_spec _ h
    exact ⟨e, h2, by simp [hf, h1], h3⟩

/-- Witness for C6: the spec example with events (08:00, 20.0) and
(14:00, 25.0) on date D, evaluated at D 07:59, D 13:00, D 14:00 and
D+1 07:00. -/
theorem C6_sp_latest_applicable_witness :
    sp_from_date_calendar exCalSp exDateD ("07:59".toList) = none
    ∧ sp_from_date_calendar exCalSp exDateD ("13:00".toList) = some 20
    ∧ sp_from_date_calendar exCalSp exDateD ("14:00".toList) = some 25
    ∧ sp_from_date_calendar exCalSp exDateD1 ("07:00".toList) = none := by
  refine ⟨(C6_sp_latest_applicable exCalSp exCalSp exDateD ("07:59".toList)).2.1
      (by decide), rfl, rfl,
    (C6_sp_latest_applicable exCalSp exCalSp exDateD1 ("07:00".toList)).2.1
      (by decide)⟩

/-- C10: hhmm_ok accepts the unpadded form H:M for every in-range hour
and minute ("8:00" in particular); no strftime("%H:%M") string (always
zero-padded) ever equals "8:00", so an event stored with that time is
never returned by the exact-minute dosing lookup; and lexicographically
"8:00" sorts after every zero-padded time with hour 10 to 23. -/
theorem C10_unpadded_time_never_fires (h m : ℕ) (hh : h ≤ 23) (hm : m ≤ 59) :
    hhmm_ok ("8:00".toList) = true
    ∧ hhmm_ok (pyRepr h ++ ':' :: pyRepr m) = true
    ∧ strftime_hm h m ≠ "8:00".toList
    ∧ (∀ (cal : Calendar) (d : PyStr),
        (∀ e ∈ dictGet cal d, e.time = "8:00".toList) →
        nut_fire_for_minute cal d (strftime_hm h m) = [])
    ∧ (10 ≤ h → pyStrLt (strftime_hm h m) ("8:00".toList) = true) := by
  have key : ∀ (hf : Fin 24) (mf : Fin 60),
      hhmm_ok (pyRepr hf.val ++ ':' :: pyRepr mf.val) = true
      ∧ strftime_hm hf.val mf.val ≠ "8:00".toList
      ∧ (10 ≤ hf.val → pyStrLt (strftime_hm hf.val mf.val) ("8:00".toList) = true) := by
    decide
  obtain ⟨k1, k2, k3⟩ := key ⟨h, by omega⟩ ⟨m, by omega⟩
  refine ⟨by decide, k1, k2, ?_, k3⟩
  intro cal d hall
  unfold nut_fire_for_minute
  by_cases hc : cal = []
  · simp [hc]
  · rw [if_neg hc, List.map_eq_nil_iff, List.filter_eq_nil_iff]
    intro e he
    rw [hall e he]
    simpa using Ne.symm k2

/-- Witness for C10 at hours 8, 9 and 10 with minute 0, including one
calendar holding an event stored at time "8:00". -/
theorem C10_unpadded_time_never_fires_witness :
    hhmm_ok (pyRepr 8 ++ ':' :: pyRepr 0) = true
    ∧ strftime_hm 8 0 ≠ "8:00".toList
    ∧ pyStrLt (strftime_hm 10 0) ("8:00".toList) = true
    ∧ nut_fire_for_minute [(exDateD, [⟨"8:00".toList, 30⟩])] exDateD
        (strftime_hm 9 0) = [] := by
  have h1 := C10_unpadded_time_never_fires 8 0 (by norm_num) (by norm_num)
  have h2 := C10_unpadded_time_never_fires 10 0 (by norm_num) (by norm_num)
  have h3 := C10_unpadded_time_never_fires 9 0 (by norm_num) (by norm_num)
  refine ⟨h1.2.1, h1.2.2.1, h2.2.2.2.2 (by norm_num), ?_⟩
  refine h3.2.2.2.1 [(exDateD, [⟨"8:00".toList, 30⟩])] exDateD ?_
  intro e he
  have he2 : e = ⟨"8:00".toList, 30⟩ := by simpa [dictGet] using he
  rw [he2]
